import Mathlib

set_option autoImplicit false

/-!
Verification of `convert_dataset.py`.

A shallow embedding of the CSV date-augmentation script and proofs of the
specified properties.  Python strings are modelled as `List Char`, the global
pseudo-random state as an explicit stream of naturals threaded through each
call, machine integers as `Int` (Python ints are unbounded, and `%` on a
positive divisor agrees with Lean's `Int.emod`).  File-system and stdout
activity is modelled as an explicit effect trace.

Scope notes, recorded once here: `\d` in the regular expression and `int()`
are modelled over ASCII digits (Unicode digit classes are out of scope);
`int()` underscore separators are out of scope; I/O exceptions other than the
ones the script tests for are not modelled (the abstract file system is always
readable).
-/

/-- ASCII decimal digit test, the model of the regex class `\d` and of the
characters `int()` accepts. -/
def isDigitChar (c : Char) : Bool := '0' ≤ c && c ≤ '9'

/-- Value of a list of decimal digit characters, most significant first:
the model of `int()` applied to a string of digits. -/
def digitsToNat (ds : List Char) : Nat :=
  ds.foldl (fun a c => 10 * a + (c.toNat - 48)) 0

/-- Fuel-driven decimal rendering of a natural number, least significant digit
peeled off at each step; `fuel = n + 1` is always enough. -/
def natDigitsCore : Nat → Nat → List Char
  | 0, _ => []
  | fuel + 1, n =>
    if n = 0 then [] else natDigitsCore fuel (n / 10) ++ [Char.ofNat (48 + n % 10)]

/-- The model of Python `str` on a non-negative integer. -/
def pyStrNat (n : Nat) : List Char :=
  if n = 0 then ['0'] else natDigitsCore (n + 1) n

/-- The model of Python `str` on an integer (f-string interpolation `{year}`). -/
def pyStrInt (i : Int) : List Char :=
  if i < 0 then '-' :: pyStrNat i.natAbs else pyStrNat i.toNat

/-- The model of the format spec `{:02d}`: pad on the left with `0` to
width 2. -/
def pad2 (i : Int) : List Char :=
  let s := pyStrInt i
  if s.length < 2 then '0' :: s else s

/-- The process-wide pseudo-random state: an explicit stream of naturals.
Each draw consumes the head of the stream. -/
abbrev Rng : Type := Nat → Nat

/-- A concrete random stream for concrete evaluations. -/
def rng0 : Rng := fun _ => 0

/-- The model of `random.randint(lo, hi)`: an inclusive-range draw.  For
`lo ≤ hi` the result always lies in `[lo, hi]` (Python raises `ValueError`
otherwise; callers below are used under that precondition). -/
def randint (lo hi : Int) (r : Rng) : Int × Rng :=
  (lo + (Int.ofNat (r 0)) % (hi + 1 - lo), fun n => r (n + 1))

/-- `DEFAULT_YEARS_RANGE` from the script. -/
def DEFAULT_YEARS_RANGE : Int × Int := (5, 10)

/-- `DEFAULT_VALID_START_RANGE` from the script. -/
def DEFAULT_VALID_START_RANGE : Int × Int := (3, 5)

/-- `DEFAULT_VALID_END_RANGE` from the script. -/
def DEFAULT_VALID_END_RANGE : Int × Int := (2, 7)

/-- `is_leap_year` from the script:
`(year % 4 == 0 and year % 100 != 0) or (year % 400 == 0)`. -/
def is_leap_year (year : Int) : Bool :=
  (year % 4 == 0 && year % 100 != 0) || (year % 400 == 0)

/-- `calendar.isleap` from the Python standard library:
`year % 4 == 0 and (year % 100 != 0 or year % 400 == 0)`. -/
def calendar_isleap (year : Int) : Bool :=
  year % 4 == 0 && (year % 100 != 0 || year % 400 == 0)

/-- The `mdays` table of the `calendar` module (index 0 unused). -/
def mdays : List Int := [0, 31, 28, 31, 30, 31, 30, 31, 31, 30, 31, 30, 31]

/-- `calendar.monthrange(year, month)[1]`: the day count of the month,
`mdays[month] + (month == FEBRUARY and isleap(year))`.  (The weekday half of
`monthrange` is unused by the script and not modelled.) -/
def monthrange_ndays (year month : Int) : Int :=
  mdays.getD month.toNat 0 + (if month = 2 && calendar_isleap year then 1 else 0)

/-- The `max_day` computation of `generate_random_date` (lines 40-46):
February is special-cased through the script's own `is_leap_year`, other
months defer to `calendar.monthrange`. -/
def gr_max_day (year month : Int) : Int :=
  if month = 2 then (if is_leap_year year then 29 else 28)
  else monthrange_ndays year month

/-- `generate_random_date(year)`: a random valid date string
`f"{year}-{month:02d}-{day:02d}"` for the given year. -/
def generate_random_date (year : Int) (r : Rng) : List Char × Rng :=
  let m := randint 1 12 r
  let d := randint 1 (gr_max_day year m.1) m.2
  (pyStrInt year ++ '-' :: pad2 m.1 ++ '-' :: pad2 d.1, d.2)

/-- The composition pattern of lines 74-76:
`f"{target_year}-{generate_random_date(target_year)[5:]}T{time_part}"` —
the random date string with its first five characters sliced off, spliced
between the target year and the original time suffix. -/
def derivTs (year : Int) (time_part : List Char) (r : Rng) : List Char :=
  pyStrInt year ++ '-' :: ((generate_random_date year r).1.drop 5) ++ 'T' :: time_part

/-- `generate_dates(match, ...)`: the three derived timestamps.  `g1` and `g4`
are the two match groups the function reads (the 4-digit year and the
time-with-offset suffix).  The global random state is threaded explicitly:
each of the three lines advances it by one `generate_random_date` call. -/
def generate_dates (g1 g4 : List Char)
    (random_years random_valid_start_year random_valid_end_year : Int)
    (r : Rng) : (List Char × List Char × List Char) × Rng :=
  let creation_year : Int := digitsToNat g1
  let time_part := g4
  let deletion_year := creation_year + random_years
  let valid_start_year := creation_year + random_valid_start_year
  let valid_end_year := valid_start_year + random_valid_end_year
  let deletion_date := derivTs deletion_year time_part r
  let r1 := (generate_random_date deletion_year r).2
  let valid_start := derivTs valid_start_year time_part r1
  let r2 := (generate_random_date valid_start_year r1).2
  let valid_end := derivTs valid_end_year time_part r2
  let r3 := (generate_random_date valid_end_year r2).2
  ((deletion_date, valid_start, valid_end), r3)

/-- One attempted match of the fixed pattern
`(\d{4})-(\d{2})-(\d{2})T(\d{2}:\d{2}:\d{2}\.\d{3}\+\d{4})` anchored at the
head of the character list.  On success it returns groups 1 and 4 (the only
groups the script uses).  The pattern is of fixed width, so there is no
backtracking to model. -/
def matchTsAt (cs : List Char) : Option (List Char × List Char) :=
  match cs with
  | y1 :: y2 :: y3 :: y4 :: c1 :: m1 :: m2 :: c2 :: d1 :: d2 :: c3 ::
    h1 :: h2 :: c4 :: n1 :: n2 :: c5 :: s1 :: s2 :: c6 ::
    f1 :: f2 :: f3 :: c7 :: z1 :: z2 :: z3 :: z4 :: _ =>
    if [y1, y2, y3, y4, m1, m2, d1, d2, h1, h2, n1, n2, s1, s2,
        f1, f2, f3, z1, z2, z3, z4].all isDigitChar
        && c1 == '-' && c2 == '-' && c3 == 'T' && c4 == ':' && c5 == ':'
        && c6 == '.' && c7 == '+'
    then some ([y1, y2, y3, y4],
               [h1, h2, c4, n1, n2, c5, s1, s2, c6, f1, f2, f3, c7, z1, z2, z3, z4])
    else none
  | _ => none

/-- `re.search(pattern, s)`: scan left to right and return the groups of the
leftmost occurrence of the pattern, if any. -/
def reSearch : List Char → Option (List Char × List Char)
  | [] => none
  | c :: rest =>
    match matchTsAt (c :: rest) with
    | some m => some m
    | none => reSearch rest

/-- The three configured inclusive year ranges (`--dyr`, `--vsr`, `--ver`). -/
structure Ranges where
  dyr : Int × Int
  vsr : Int × Int
  ver : Int × Int
deriving DecidableEq

/-- The precondition under which Python's `random.randint` does not raise:
each range has `min ≤ max`. -/
def Ranges.Valid (rg : Ranges) : Prop :=
  rg.dyr.1 ≤ rg.dyr.2 ∧ rg.vsr.1 ≤ rg.vsr.2 ∧ rg.ver.1 ≤ rg.ver.2

/-- The default ranges, as bundled by `main`'s parameter defaults. -/
def rgDefault : Ranges :=
  ⟨DEFAULT_YEARS_RANGE, DEFAULT_VALID_START_RANGE, DEFAULT_VALID_END_RANGE⟩

/-- The body of the row loop of `process_csv_file` (lines 113-131) for one
row: a row with at most `creation_date_index` fields is skipped by `continue`
(result `none`: nothing is written); otherwise the creation-date field is
searched for the pattern, and on a match three fresh offsets are drawn and the
three derived timestamps appended, else the row passes through unchanged. -/
def processRow (creation_date_index : Nat) (rg : Ranges)
    (row : List (List Char)) (r : Rng) : Option (List (List Char)) × Rng :=
  if row.length ≤ creation_date_index then (none, r)
  else
    match reSearch (row.getD creation_date_index []) with
    | some (g1, g4) =>
      let d1 := randint rg.dyr.1 rg.dyr.2 r
      let d2 := randint rg.vsr.1 rg.vsr.2 d1.2
      let d3 := randint rg.ver.1 rg.ver.2 d2.2
      let gd := generate_dates g1 g4 d1.1 d2.1 d3.1 d3.2
      (some (row ++ [gd.1.1, gd.1.2.1, gd.1.2.2]), gd.2)
    | none => (some row, r)

/-- The row loop of `process_csv_file`: rows written to the output, in order,
with the random state threaded through. -/
def processRows (creation_date_index : Nat) (rg : Ranges) :
    List (List (List Char)) → Rng → List (List (List Char)) × Rng
  | [], r => ([], r)
  | row :: rest, r =>
    let pr := processRow creation_date_index rg row r
    let prs := processRows creation_date_index rg rest pr.2
    (match pr.1 with | some w => w :: prs.1 | none => prs.1, prs.2)

/-- A parsed `|`-delimited CSV file: header row plus data rows, each a list
of string fields. -/
structure CsvFile where
  header : List (List Char)
  rows : List (List (List Char))
deriving DecidableEq

/-- An observable effect of a run: a `makedirs` call, a file written, or a
line printed. -/
inductive Eff where
  | mkdirs : List Char → Eff
  | write : List Char → CsvFile → Eff
  | msg : List Char → Eff
deriving DecidableEq

/-- `list.index(x)` of Python: index of the first equal element, `none`
modelling the `ValueError` that `process_csv_file` catches. -/
def listIndex (x : List Char) : List (List Char) → Option Nat
  | [] => none
  | y :: ys => if y = x then some 0 else (listIndex x ys).map (· + 1)

/-- `os.path.join(a, b)` for a directory name without a trailing separator
and a relative name (the only shapes the script builds). -/
def pyJoin (a b : List Char) : List Char := a ++ '/' :: b

/-- The model of Python `str.split(sep)` for a one-character separator:
every occurrence splits, empty parts preserved, `split` of the empty string
is `[""]`. -/
def pySplit (sep : Char) : List Char → List (List Char)
  | [] => [[]]
  | c :: rest =>
    if c = sep then [] :: pySplit sep rest
    else
      match pySplit sep rest with
      | g :: gs => (c :: g) :: gs
      | [] => [[c]]

/-- `os.path.basename`: the part after the last separator. -/
def pyBasename (p : List Char) : List Char := (pySplit '/' p).getLastD []

/-- `str.endswith(suffix)`. -/
def pyEndswith (suffix cs : List Char) : Bool :=
  suffix.length ≤ cs.length && cs.drop (cs.length - suffix.length) == suffix

/-- The column name the script looks up. -/
def creationDateS : List Char := "creationDate".data

/-- The three appended column names. -/
def newColumnsS : List (List Char) :=
  ["deletionDate".data, "validStart".data, "validEnd".data]

/-- The diagnostic printed when a file has no `creationDate` column. -/
def skipMsg (input_file : List Char) : List Char :=
  ("Skipping \x27".data) ++ input_file ++ ("\x27 (No \x27creationDate\x27 column found)".data)

/-- The success message of `process_csv_file`. -/
def processedMsg (input_file output_file : List Char) : List Char :=
  ("Processed: ".data) ++ input_file ++ (" -> ".data) ++ output_file

/-- `process_csv_file(input_file, output_directory, ...)` on a file whose
parsed content is `f`: either the skip diagnostic (no `creationDate` column —
the output file is never opened), or a write of the extended header and the
transformed rows followed by the success message. -/
def process_csv_file (input_file output_directory : List Char) (f : CsvFile)
    (rg : Ranges) (r : Rng) : List Eff × Rng :=
  let output_file := pyJoin output_directory (pyBasename input_file)
  match listIndex creationDateS f.header with
  | none => ([Eff.msg (skipMsg input_file)], r)
  | some creation_date_index =>
    let prs := processRows creation_date_index rg f.rows r
    ([Eff.write output_file ⟨f.header ++ newColumnsS, prs.1⟩,
      Eff.msg (processedMsg input_file output_file)], prs.2)

/-- The per-file loop of `process_directory`. -/
def processFilesLoop (input_directory output_directory : List Char) (rg : Ranges) :
    List (List Char × CsvFile) → Rng → List Eff × Rng
  | [], r => ([], r)
  | nf :: rest, r =>
    let p := process_csv_file (pyJoin input_directory nf.1) output_directory nf.2 rg r
    let q := processFilesLoop input_directory output_directory rg rest p.2
    (p.1 ++ q.1, q.2)

/-- The banner printed before the per-file loop. -/
def processingMsg (n : Nat) (input_directory : List Char) : List Char :=
  ("Processing ".data) ++ pyStrNat n ++ (" CSV files in \x27".data) ++
    input_directory ++ ("\x27...".data)

/-- The message printed when the directory holds no CSV file. -/
def noCsvMsg (input_directory : List Char) : List Char :=
  ("No CSV files found in directory: ".data) ++ input_directory

/-- `process_directory`: create the output directory, keep the entries ending
in `.csv`, and process each in turn (the entry list stands for `os.listdir`,
whose order is unspecified). -/
def process_directory (input_directory output_directory : List Char)
    (files : List (List Char × CsvFile)) (rg : Ranges) (r : Rng) : List Eff × Rng :=
  let csv_files := files.filter (fun nf => pyEndswith (".csv".data) nf.1)
  if csv_files.isEmpty then
    ([Eff.mkdirs output_directory, Eff.msg (noCsvMsg input_directory)], r)
  else
    let p := processFilesLoop input_directory output_directory rg csv_files r
    (Eff.mkdirs output_directory :: Eff.msg (processingMsg csv_files.length input_directory)
      :: p.1, p.2)

/-- The writes contained in an effect trace, as (path, content) pairs. -/
def writesOf (effs : List Eff) : List (List Char × CsvFile) :=
  effs.filterMap (fun e => match e with | Eff.write p c => some (p, c) | _ => none)

/-- ASCII whitespace, the model of what `str.strip()` removes. -/
def isPySpace (c : Char) : Bool :=
  c == ' ' || c == '\t' || c == '\n' || c == '\r' || c == '\x0b' || c == '\x0c'

/-- `str.strip()`. -/
def pyStrip (s : List Char) : List Char :=
  ((s.dropWhile isPySpace).reverse.dropWhile isPySpace).reverse

/-- `str.lower()` over ASCII. -/
def pyLower (s : List Char) : List Char :=
  s.map (fun c => if 'A' ≤ c && c ≤ 'Z' then Char.ofNat (c.toNat + 32) else c)

/-- The model of `int(s)`: optional surrounding whitespace, an optional sign,
then a non-empty run of digits; `none` is the `ValueError`. -/
def pyInt (s : List Char) : Option Int :=
  let t := pyStrip s
  match t with
  | '-' :: ds =>
    if ds ≠ [] ∧ ds.all isDigitChar then some (-(digitsToNat ds : Int)) else none
  | '+' :: ds =>
    if ds ≠ [] ∧ ds.all isDigitChar then some (digitsToNat ds : Int) else none
  | ds =>
    if ds ≠ [] ∧ ds.all isDigitChar then some (digitsToNat ds : Int) else none

/-- The diagnostic `get_range_input` prints before falling back,
`print("Invalid input. Using default values:", default)`. -/
def invalidInputMsg (default : Int × Int) : List Char :=
  ("Invalid input. Using default values: (".data) ++ pyStrInt default.1 ++
    (", ".data) ++ pyStrInt default.2 ++ (")".data)

/-- `get_range_input(prompt, default)` on the line read from standard input:
blank input returns the default silently; `tuple(map(int, input.split(",")))`
returns the tuple of ALL parsed components (whatever their number) when every
component parses as an int, and otherwise the `ValueError` is caught, a notice
is printed and the default returned.  The result is a `List Int` because the
returned tuple is a pair only when the input has exactly two components. -/
def get_range_input (user_input : List Char) (default : Int × Int) :
    List Int × List Eff :=
  let s := pyStrip user_input
  if s = [] then ([default.1, default.2], [])
  else
    match (pySplit ',' s).mapM pyInt with
    | some vals => (vals, [])
    | none => ([default.1, default.2], [Eff.msg (invalidInputMsg default)])

/-- `parse_range(value)` used by argparse for `--dyr`/`--vsr`/`--ver`:
exactly two comma-separated ints with `min ≤ max`; `none` models the
`ArgumentTypeError` (argparse then exits with a usage error). -/
def parse_range (value : List Char) : Option (Int × Int) :=
  match (pySplit ',' value).mapM pyInt with
  | some [min_val, max_val] => if min_val > max_val then none else some (min_val, max_val)
  | _ => none

/-- Python keeps whatever tuple `get_range_input` returned and only unpacks it
inside `random.randint(*range)`, where a non-pair raises a `TypeError` caught
per file; that crash corner is not exercised by any claim and is modelled by
keeping the previous range when the returned tuple is not a pair. -/
def toPair (l : List Int) (d : Int × Int) : Int × Int :=
  match l with
  | [a, b] => (a, b)
  | _ => d

/-- The value of an argparse option taken from the raw argument vector, for
the two documented spellings `--name value` and `--name=value` (and the short
`-x value`).  Single occurrence per option and a value present after each flag
token are assumed, as in every invocation the claims quantify over. -/
def optValue (short long : List Char) : List (List Char) → Option (List Char)
  | [] => none
  | t :: rest =>
    if t == short || t == long then rest.head?
    else if t.take (long.length + 1) == long ++ ['='] then
      some (t.drop (long.length + 1))
    else optValue short long rest

/-- The abstract file system a run sees: directory listings (path to named
file contents) and single files (path to content).  Paths present in the maps
exist and are readable. -/
structure Fs where
  dirs : List (List Char × List (List Char × CsvFile))
  files : List (List Char × CsvFile)

/-- Directory listing lookup (`os.listdir`); a missing directory is modelled
as empty (the script would crash on it, a corner no claim exercises). -/
def fsDir (fs : Fs) (p : List Char) : List (List Char × CsvFile) :=
  (fs.dirs.lookup p).getD []

/-- `os.path.exists` plus the file read, for single-file mode. -/
def fsFile (fs : Fs) (p : List Char) : Option CsvFile :=
  fs.files.lookup p

/-- The tail of `main` (lines 262-269): directory mode processes the
directory; file mode checks existence first and exits 1 when missing. -/
def mainDispatch (output_directory input_path : List Char) (is_directory : Bool)
    (rg : Ranges) (fs : Fs) (r : Rng) : Nat × List Eff :=
  if is_directory then
    (0, (process_directory input_path output_directory (fsDir fs input_path) rg r).1)
  else
    match fsFile fs input_path with
    | some f => (0, (process_csv_file input_path output_directory f rg r).1)
    | none => (1, [Eff.msg (("File not found: ".data) ++ input_path)])

/-- The optional range-override prompts of the interactive branch
(lines 255-260): on answer `y`, three `get_range_input` reads. -/
def mainInteractiveRanges (stdin : List (List Char)) (dyr vsr ver : Int × Int) :
    Ranges × List Eff :=
  let custom_random := pyLower (pyStrip (stdin.getD 0 []))
  if custom_random = "y".data then
    let g1 := get_range_input (stdin.getD 1 []) dyr
    let g2 := get_range_input (stdin.getD 2 []) vsr
    let g3 := get_range_input (stdin.getD 3 []) ver
    (⟨toPair g1.1 dyr, toPair g2.1 vsr, toPair g3.1 ver⟩, g1.2 ++ g2.2 ++ g3.2)
  else (⟨dyr, vsr, ver⟩, [])

/-- The error printed when both mode flags are detected. -/
def bothFlagsMsg : List Char :=
  "Error: -d/--directory and -f/--file cannot be used simultaneously.".data

/-- The body of `main` after the initial `os.makedirs` call: the literal
`sys.argv` membership test for `-d`/`--directory` against `-f`/`--file`
(lines 231-236), then the interactive fallback when no path was supplied
(`input()` prompt text is part of the read and not recorded as an effect),
then the dispatch. -/
def pymainBody (argv : List (List Char)) (input_path output_directory : List Char)
    (is_directory : Bool) (dyr vsr ver : Int × Int) (fs : Fs)
    (stdin : List (List Char)) (r : Rng) : Nat × List Eff :=
  let has_directory_arg := argv.contains ("-d".data) || argv.contains ("--directory".data)
  let has_file_arg := argv.contains ("-f".data) || argv.contains ("--file".data)
  if has_directory_arg && has_file_arg then
    (1, [Eff.msg bothFlagsMsg])
  else if input_path = [] then
    let banner := [Eff.msg ("*** CSV Processing Script ***".data)]
    let choice := pyStrip (stdin.getD 0 [])
    if choice = "1".data || choice = "2".data then
      let path := pyStrip (stdin.getD 1 [])
      if path = [] then
        (1, banner ++ [Eff.msg ("Error: No valid path provided. Exiting.".data)])
      else
        let ir := mainInteractiveRanges (stdin.drop 2) dyr vsr ver
        let dp := mainDispatch output_directory path (choice = "1".data) ir.1 fs r
        (dp.1, banner ++ ir.2 ++ dp.2)
    else (1, banner ++ [Eff.msg ("Invalid choice. Exiting.".data)])
  else
    mainDispatch output_directory input_path is_directory ⟨dyr, vsr, ver⟩ fs r

/-- `main(...)`: `os.makedirs(output_directory, exist_ok=True)` is its first
statement (line 229), before any validation, so the trace of every call starts
with that effect. -/
def pymain (argv : List (List Char)) (input_path output_directory : List Char)
    (is_directory : Bool) (dyr vsr ver : Int × Int) (fs : Fs)
    (stdin : List (List Char)) (r : Rng) : Nat × List Eff :=
  let body := pymainBody argv input_path output_directory is_directory dyr vsr ver fs stdin r
  (body.1, Eff.mkdirs output_directory :: body.2)

/-- The `__main__` block: argparse resolves the five options (defaults
`processed_csv` and the three default ranges; a malformed range flag is a
usage error, exit status 2) and calls `main` with
`input_path = args.directory or args.file` and
`is_directory = bool(args.directory)`. -/
def runMain (argv : List (List Char)) (fs : Fs) (stdin : List (List Char))
    (r : Rng) : Nat × List Eff :=
  let directory := optValue ("-d".data) ("--directory".data) argv
  let file := optValue ("-f".data) ("--file".data) argv
  let output := (optValue ("-o".data) ("--output".data) argv).getD ("processed_csv".data)
  let dyrO := match optValue ("--dyr".data) ("--dyr".data) argv with
              | none => some DEFAULT_YEARS_RANGE
              | some v => parse_range v
  let vsrO := match optValue ("--vsr".data) ("--vsr".data) argv with
              | none => some DEFAULT_VALID_START_RANGE
              | some v => parse_range v
  let verO := match optValue ("--ver".data) ("--ver".data) argv with
              | none => some DEFAULT_VALID_END_RANGE
              | some v => parse_range v
  match dyrO, vsrO, verO with
  | some dyr, some vsr, some ver =>
    let input_path := match directory with
                      | some d => if d.isEmpty then (file.getD []) else d
                      | none => file.getD []
    let is_directory := match directory with
                        | some d => !d.isEmpty
                        | none => false
    pymain argv input_path output is_directory dyr vsr ver fs stdin r
  | _, _, _ => (2, [])

/-- Modelled from the claim's words, for comparison with the code's month
lengths: the calendar-valid maximum day of a month, February being 29 exactly
in Gregorian leap years (divisible by 4 and not by 100, unless also divisible
by 400) and 28 otherwise. -/
def specMaxDay (year month : Int) : Int :=
  if month = 2 then
    (if (year % 4 = 0 ∧ year % 100 ≠ 0) ∨ year % 400 = 0 then 29 else 28)
  else if month = 4 ∨ month = 6 ∨ month = 9 ∨ month = 11 then 30
  else 31

/-- A concrete creation timestamp used for concrete instantiations. -/
def sampleTs : List Char := "2020-05-17T10:15:30.000+0000".data

/-- A one-field row holding `sampleTs`. -/
def sampleRow : List (List Char) := [sampleTs]

/-- The year group of `sampleTs`. -/
def sampleG1 : List Char := "2020".data

/-- The time-suffix group of `sampleTs`. -/
def sampleG4 : List Char := "10:15:30.000+0000".data

/-- A field in which the pattern occurs as a proper substring, surrounded by
junk, first occurrence at index 2. -/
def sampleJunk : List Char := "xx2020-05-17T10:15:30.000+0000yy".data

/-- A one-field row holding `sampleJunk`. -/
def sampleJunkRow : List (List Char) := [sampleJunk]

/-- A directory listing with `a.csv` (has a `creationDate` column), `b.csv`
(lacks it) and `notes.txt` (not a CSV file). -/
def cexDirFiles : List (List Char × CsvFile) :=
  [(("a.csv".data), ⟨[("creationDate".data)], []⟩),
   (("b.csv".data), ⟨[("id".data)], []⟩),
   (("notes.txt".data), ⟨[("creationDate".data)], []⟩)]

/-- An argument vector passing both mode flags in `--name=value` form. -/
def cexArgv : List (List Char) := ["--directory=ind".data, "--file=f.csv".data]

/-- A file system with one directory `ind` holding one CSV file that has a
`creationDate` column and no data rows. -/
def cexFs : Fs :=
  ⟨[(("ind".data), [(("a.csv".data), ⟨[("creationDate".data)], []⟩)])], []⟩

theorem randint_mem (lo hi : Int) (r : Rng) (h : lo ≤ hi) :
    lo ≤ (randint lo hi r).1 ∧ (randint lo hi r).1 ≤ hi := by
  have hpos : (0 : Int) < hi + 1 - lo := by omega
  have h1 : 0 ≤ (Int.ofNat (r 0)) % (hi + 1 - lo) := Int.emod_nonneg _ (by omega)
  have h2 : (Int.ofNat (r 0)) % (hi + 1 - lo) < hi + 1 - lo := Int.emod_lt_of_pos _ hpos
  constructor <;> simp only [randint] <;> omega

theorem natDigitsCore_zero (fuel : Nat) : natDigitsCore fuel 0 = [] := by
  cases fuel <;> simp [natDigitsCore]

theorem natDigitsCore_len_le (fuel : Nat) :
    ∀ (n k : Nat), n < 10 ^ k → (natDigitsCore fuel n).length ≤ k := by
  induction fuel with
  | zero => intro n k _; simp [natDigitsCore]
  | succ f ih =>
    intro n k h
    by_cases hn : n = 0
    · subst hn; simp [natDigitsCore]
    · rw [natDigitsCore, if_neg hn]
      rcases k with _ | k'
      · omega
      · have hdiv : n / 10 < 10 ^ k' := by
          rw [Nat.div_lt_iff_lt_mul (by omega)]
          calc n < 10 ^ (k' + 1) := h
            _ = 10 ^ k' * 10 := by ring
        have := ih (n / 10) k' hdiv
        simp only [List.length_append, List.length_cons, List.length_nil]
        omega

theorem natDigitsCore_len_ge (fuel : Nat) :
    ∀ (n k : Nat), 10 ^ k ≤ n → k < fuel → k + 1 ≤ (natDigitsCore fuel n).length := by
  induction fuel with
  | zero => intro n k _ h; omega
  | succ f ih =>
    intro n k h hf
    have hn : n ≠ 0 := by
      have : (1 : Nat) ≤ 10 ^ k := Nat.one_le_pow _ _ (by omega)
      omega
    rw [natDigitsCore, if_neg hn]
    simp only [List.length_append, List.length_cons, List.length_nil]
    rcases k with _ | k'
    · omega
    · have hdiv : 10 ^ k' ≤ n / 10 := by
        rw [Nat.le_div_iff_mul_le (by omega)]
        calc 10 ^ k' * 10 = 10 ^ (k' + 1) := by ring
          _ ≤ n := h
      have := ih (n / 10) k' hdiv (by omega)
      omega

theorem pyStrNat_len_four (n : Nat) (h1 : 1000 ≤ n) (h2 : n ≤ 9999) :
    (pyStrNat n).length = 4 := by
  rw [pyStrNat, if_neg (by omega)]
  have hle := natDigitsCore_len_le (n + 1) n 4 (by norm_num; omega)
  have hge := natDigitsCore_len_ge (n + 1) n 3 (by norm_num; omega) (by omega)
  omega

theorem pyStrNat_len_le_three (n : Nat) (h : n ≤ 999) : (pyStrNat n).length ≤ 3 := by
  by_cases hn : n = 0
  · subst hn; simp [pyStrNat]
  · rw [pyStrNat, if_neg hn]
    exact natDigitsCore_len_le (n + 1) n 3 (by norm_num; omega)

theorem pyStrNat_len_pos (n : Nat) : 1 ≤ (pyStrNat n).length := by
  by_cases hn : n = 0
  · subst hn; simp [pyStrNat]
  · rw [pyStrNat, if_neg hn]
    exact natDigitsCore_len_ge (n + 1) n 0 (by omega) (by omega)

theorem pyStrInt_len_four (i : Int) (h1 : 1000 ≤ i) (h2 : i ≤ 9999) :
    (pyStrInt i).length = 4 := by
  rw [pyStrInt, if_neg (by omega)]
  exact pyStrNat_len_four i.toNat (by omega) (by omega)

theorem pyStrInt_len_le_three (i : Int) (h0 : 0 ≤ i) (h : i ≤ 999) :
    (pyStrInt i).length ≤ 3 := by
  rw [pyStrInt, if_neg (by omega)]
  exact pyStrNat_len_le_three i.toNat (by omega)

theorem pyStrInt_len_pos (i : Int) : 1 ≤ (pyStrInt i).length := by
  rw [pyStrInt]
  split
  · simp only [List.length_cons]; omega
  · exact pyStrNat_len_pos _

theorem pad2_length (i : Int) (h1 : 1 ≤ i) (h2 : i ≤ 99) : (pad2 i).length = 2 := by
  have h0 : ¬ i < 0 := by omega
  have hne : i.toNat ≠ 0 := by omega
  have hle := natDigitsCore_len_le (i.toNat + 1) i.toNat 2 (by norm_num; omega)
  have hge := natDigitsCore_len_ge (i.toNat + 1) i.toNat 0 (by omega) (by omega)
  simp only [pad2, pyStrInt, if_neg h0, pyStrNat, if_neg hne]
  split
  · simp only [List.length_cons]; omega
  · omega

theorem natDigitsCore_digits (fuel : Nat) :
    ∀ (n : Nat), ∀ c ∈ natDigitsCore fuel n, isDigitChar c = true := by
  induction fuel with
  | zero => intro n c hc; simp [natDigitsCore] at hc
  | succ f ih =>
    intro n c hc
    by_cases hn : n = 0
    · subst hn; simp [natDigitsCore] at hc
    · rw [natDigitsCore, if_neg hn, List.mem_append] at hc
      rcases hc with hc | hc
      · exact ih _ c hc
      · simp only [List.mem_singleton] at hc
        subst hc
        have hlt : n % 10 < 10 := Nat.mod_lt _ (by omega)
        interval_cases h : n % 10 <;> decide

theorem pyStrNat_digits (n : Nat) : ∀ c ∈ pyStrNat n, isDigitChar c = true := by
  by_cases hn : n = 0
  · subst hn; intro c hc; simp [pyStrNat] at hc; subst hc; decide
  · rw [pyStrNat, if_neg hn]; exact natDigitsCore_digits _ _

theorem pad2_digits (i : Int) (h0 : 0 ≤ i) : ∀ c ∈ pad2 i, isDigitChar c = true := by
  have hneg : ¬ i < 0 := by omega
  intro c hc
  simp only [pad2, pyStrInt, if_neg hneg] at hc
  split at hc
  · rcases List.mem_cons.mp hc with hc | hc
    · subst hc; decide
    · exact pyStrNat_digits _ c hc
  · exact pyStrNat_digits _ c hc

theorem is_leap_year_iff (y : Int) :
    is_leap_year y = true ↔ ((y % 4 = 0 ∧ y % 100 ≠ 0) ∨ y % 400 = 0) := by
  simp [is_leap_year]

theorem gr_max_day_eq_spec (y m : Int) (h1 : 1 ≤ m) (h2 : m ≤ 12) :
    gr_max_day y m = specMaxDay y m := by
  by_cases hm : m = 2
  · subst hm
    show (if is_leap_year y then (29 : Int) else 28) =
      if (y % 4 = 0 ∧ y % 100 ≠ 0) ∨ y % 400 = 0 then 29 else 28
    by_cases h : (y % 4 = 0 ∧ y % 100 ≠ 0) ∨ y % 400 = 0
    · rw [if_pos ((is_leap_year_iff y).mpr h), if_pos h]
    · rw [if_neg fun hb => h ((is_leap_year_iff y).mp hb), if_neg h]
  · rw [gr_max_day, if_neg hm, monthrange_ndays,
      if_neg (by simp only [Bool.and_eq_true, decide_eq_true_eq]; tauto)]
    interval_cases m <;> first | rfl | (exact absurd rfl hm)

theorem gr_max_day_bounds (y m : Int) (h1 : 1 ≤ m) (h2 : m ≤ 12) :
    28 ≤ gr_max_day y m ∧ gr_max_day y m ≤ 31 := by
  rw [gr_max_day_eq_spec y m h1 h2, specMaxDay]
  split
  · split <;> omega
  · split <;> omega

theorem generate_random_date_shape (y : Int) (r : Rng) :
    ∃ m d : Int, 1 ≤ m ∧ m ≤ 12 ∧ 1 ≤ d ∧ d ≤ gr_max_day y m ∧
      (generate_random_date y r).1 = pyStrInt y ++ '-' :: pad2 m ++ '-' :: pad2 d := by
  obtain ⟨hm1, hm2⟩ := randint_mem 1 12 r (by norm_num)
  have h28 := (gr_max_day_bounds y (randint 1 12 r).1 hm1 hm2).1
  have hmax : (1 : Int) ≤ gr_max_day y (randint 1 12 r).1 := by omega
  obtain ⟨hd1, hd2⟩ := randint_mem 1 (gr_max_day y (randint 1 12 r).1) (randint 1 12 r).2 hmax
  exact ⟨(randint 1 12 r).1, (randint 1 (gr_max_day y (randint 1 12 r).1) (randint 1 12 r).2).1,
    hm1, hm2, hd1, hd2, rfl⟩

theorem derivTs_append (y : Int) (tp : List Char) (r : Rng) :
    derivTs y tp r =
      (pyStrInt y ++ '-' :: ((generate_random_date y r).1.drop 5)) ++ 'T' :: tp := by
  simp [derivTs, List.append_assoc]

theorem processRow_match_spec (idx : Nat) (rg : Ranges) (row : List (List Char))
    (r : Rng) (g1 g4 : List Char) (hv : rg.Valid) (hlen : idx < row.length)
    (hm : reSearch (row.getD idx []) = some (g1, g4)) :
    ∃ (o1 o2 o3 : Int) (ra rb rc : Rng),
      rg.dyr.1 ≤ o1 ∧ o1 ≤ rg.dyr.2 ∧
      rg.vsr.1 ≤ o2 ∧ o2 ≤ rg.vsr.2 ∧
      rg.ver.1 ≤ o3 ∧ o3 ≤ rg.ver.2 ∧
      (processRow idx rg row r).1 = some (row ++
        [derivTs ((digitsToNat g1 : Int) + o1) g4 ra,
         derivTs ((digitsToNat g1 : Int) + o2) g4 rb,
         derivTs (((digitsToNat g1 : Int) + o2) + o3) g4 rc]) := by
  obtain ⟨hv1, hv2, hv3⟩ := hv
  have hle : ¬ row.length ≤ idx := by omega
  let cy : Int := (digitsToNat g1 : Int)
  let d1 := randint rg.dyr.1 rg.dyr.2 r
  let d2 := randint rg.vsr.1 rg.vsr.2 d1.2
  let d3 := randint rg.ver.1 rg.ver.2 d2.2
  let ra := d3.2
  let rb := (generate_random_date (cy + d1.1) ra).2
  let rc := (generate_random_date (cy + d2.1) rb).2
  refine ⟨d1.1, d2.1, d3.1, ra, rb, rc,
    (randint_mem _ _ _ hv1).1, (randint_mem _ _ _ hv1).2,
    (randint_mem _ _ _ hv2).1, (randint_mem _ _ _ hv2).2,
    (randint_mem _ _ _ hv3).1, (randint_mem _ _ _ hv3).2, ?_⟩
  simp only [processRow]
  rw [if_neg hle, hm]
  rfl
theorem reSearch_of_first (cs : List Char) (i : Nat) (m : List Char × List Char)
    (hm : matchTsAt (cs.drop i) = some m)
    (hfirst : ∀ j < i, matchTsAt (cs.drop j) = none) :
    reSearch cs = some m := by
  induction cs generalizing i with
  | nil =>
    rw [List.drop_nil] at hm
    exact absurd hm (by simp [matchTsAt])
  | cons c rest ih =>
    cases i with
    | zero =>
      rw [List.drop_zero] at hm
      rw [reSearch, hm]
    | succ i' =>
      have h0 := hfirst 0 (Nat.succ_pos _)
      rw [List.drop_zero] at h0
      rw [reSearch, h0]
      rw [List.drop_succ_cons] at hm
      exact ih i' hm (fun j hj => by
        have := hfirst (j + 1) (by omega)
        rwa [List.drop_succ_cons] at this)

theorem processRow_short (idx : Nat) (rg : Ranges) (row : List (List Char))
    (r : Rng) (h : row.length ≤ idx) : processRow idx rg row r = (none, r) := by
  simp [processRow, h]

theorem processRow_nomatch (idx : Nat) (rg : Ranges) (row : List (List Char))
    (r : Rng) (hlen : idx < row.length)
    (hm : reSearch (row.getD idx []) = none) :
    processRow idx rg row r = (some row, r) := by
  rw [processRow, if_neg (by omega), hm]

theorem processRow_isSome (idx : Nat) (rg : Ranges) (row : List (List Char))
    (r : Rng) (hlen : idx < row.length) :
    ∃ w, (processRow idx rg row r).1 = some w := by
  rw [processRow, if_neg (by omega : ¬ row.length ≤ idx)]
  rcases hs : reSearch (row.getD idx []) with _ | ⟨g1, g4⟩
  · exact ⟨row, rfl⟩
  · exact ⟨_, rfl⟩
/-- C1: for every input row whose creation-date field matches the timestamp
pattern, and for configured valid inclusive ranges, the three appended
timestamps are built from target years `cy + o1` (deletion), `cy + o2`
(valid start) and `(cy + o2) + o3` (valid end, on top of the valid-start
year, not the creation year), where `cy` is the captured creation year and
the offsets `o1, o2, o3` are drawn freshly from `dyr`, `vsr`, `ver`
respectively for this row (the random stream advances with each draw). -/
theorem C1_offsets_inRange (idx : Nat) (rg : Ranges) (row : List (List Char))
    (r : Rng) (g1 g4 : List Char) (hv : rg.Valid) (hlen : idx < row.length)
    (hm : reSearch (row.getD idx []) = some (g1, g4)) :
    ∃ (o1 o2 o3 : Int) (ra rb rc : Rng),
      rg.dyr.1 ≤ o1 ∧ o1 ≤ rg.dyr.2 ∧
      rg.vsr.1 ≤ o2 ∧ o2 ≤ rg.vsr.2 ∧
      rg.ver.1 ≤ o3 ∧ o3 ≤ rg.ver.2 ∧
      (processRow idx rg row r).1 = some (row ++
        [derivTs ((digitsToNat g1 : Int) + o1) g4 ra,
         derivTs ((digitsToNat g1 : Int) + o2) g4 rb,
         derivTs (((digitsToNat g1 : Int) + o2) + o3) g4 rc]) :=
  processRow_match_spec idx rg row r g1 g4 hv hlen hm

theorem C1_offsets_inRange_witness :
    rgDefault.Valid ∧
    ∃ (o1 o2 o3 : Int) (ra rb rc : Rng),
      rgDefault.dyr.1 ≤ o1 ∧ o1 ≤ rgDefault.dyr.2 ∧
      rgDefault.vsr.1 ≤ o2 ∧ o2 ≤ rgDefault.vsr.2 ∧
      rgDefault.ver.1 ≤ o3 ∧ o3 ≤ rgDefault.ver.2 ∧
      (processRow 0 rgDefault sampleRow rng0).1 = some (sampleRow ++
        [derivTs ((digitsToNat sampleG1 : Int) + o1) sampleG4 ra,
         derivTs ((digitsToNat sampleG1 : Int) + o2) sampleG4 rb,
         derivTs (((digitsToNat sampleG1 : Int) + o2) + o3) sampleG4 rc]) :=
  ⟨⟨by decide, by decide, by decide⟩,
   C1_offsets_inRange 0 rgDefault sampleRow rng0 sampleG1 sampleG4
     ⟨by decide, by decide, by decide⟩ (by decide) (by decide)⟩

/-- C2: for every input row whose creation-date field matches the pattern
(and valid configured ranges), the output row has exactly 3 more fields than
the input row, all original fields unchanged and in place, and each of the
three appended timestamps ends, character for character, in `T` followed by
the time-plus-offset suffix captured from that row's creation timestamp. -/
theorem C2_row_shape (idx : Nat) (rg : Ranges) (row : List (List Char))
    (r : Rng) (g1 g4 : List Char) (hv : rg.Valid) (hlen : idx < row.length)
    (hm : reSearch (row.getD idx []) = some (g1, g4)) :
    ∃ out, (processRow idx rg row r).1 = some out ∧
      out.length = row.length + 3 ∧
      out.take row.length = row ∧
      ∃ p1 p2 p3 : List Char,
        out = row ++ [p1 ++ 'T' :: g4, p2 ++ 'T' :: g4, p3 ++ 'T' :: g4] := by
  obtain ⟨o1, o2, o3, ra, rb, rc, _, _, _, _, _, _, heq⟩ :=
    processRow_match_spec idx rg row r g1 g4 hv hlen hm
  refine ⟨_, heq, ?_, List.take_left _ _, ?_⟩
  · simp [List.length_append]
  · exact ⟨_, _, _, by rw [derivTs_append, derivTs_append, derivTs_append]⟩

theorem C2_row_shape_witness :
    rgDefault.Valid ∧
    ∃ out, (processRow 0 rgDefault sampleRow rng0).1 = some out ∧
      out.length = sampleRow.length + 3 ∧
      out.take sampleRow.length = sampleRow ∧
      ∃ p1 p2 p3 : List Char,
        out = sampleRow ++
          [p1 ++ 'T' :: sampleG4, p2 ++ 'T' :: sampleG4, p3 ++ 'T' :: sampleG4] :=
  ⟨⟨by decide, by decide, by decide⟩,
   C2_row_shape 0 rgDefault sampleRow rng0 sampleG1 sampleG4
     ⟨by decide, by decide, by decide⟩ (by decide) (by decide)⟩

/-- C4: for every target year (and any random state), the generated date is a
calendar-valid Gregorian date: month in 1..12 and day in 1..max-day of that
month, February capped at 29 exactly in Gregorian leap years and 28 otherwise
(`specMaxDay` renders the claim's wording); in particular the February cap is
29 for 2024 and 28 for 2023. -/
theorem C4_random_date_valid (year : Int) (r : Rng) :
    specMaxDay 2024 2 = 29 ∧ specMaxDay 2023 2 = 28 ∧
    ∃ month day : Int, 1 ≤ month ∧ month ≤ 12 ∧ 1 ≤ day ∧ day ≤ specMaxDay year month ∧
      (generate_random_date year r).1 =
        pyStrInt year ++ '-' :: pad2 month ++ '-' :: pad2 day := by
  refine ⟨by decide, by decide, ?_⟩
  obtain ⟨m, d, h1, h2, h3, h4, heq⟩ := generate_random_date_shape year r
  exact ⟨m, d, h1, h2, h3, by rwa [gr_max_day_eq_spec year m h1 h2] at h4, heq⟩

/-- C8: the per-row test is a substring search, not a full-field match: if the
pattern occurs in the creation-date field at position `i` and nowhere earlier,
then `re.search` returns exactly the groups of that first occurrence, the row
is treated as matching, and the three appended timestamps carry the time
suffix captured from that occurrence. -/
theorem C8_substring_search (idx : Nat) (rg : Ranges) (row : List (List Char))
    (r : Rng) (field g1 g4 : List Char) (i : Nat) (hv : rg.Valid)
    (hlen : idx < row.length) (hfield : row.getD idx [] = field)
    (hocc : matchTsAt (field.drop i) = some (g1, g4))
    (hfirst : ∀ j < i, matchTsAt (field.drop j) = none) :
    reSearch field = some (g1, g4) ∧
    ∃ p1 p2 p3 : List Char,
      (processRow idx rg row r).1 =
        some (row ++ [p1 ++ 'T' :: g4, p2 ++ 'T' :: g4, p3 ++ 'T' :: g4]) := by
  have hs := reSearch_of_first field i (g1, g4) hocc hfirst
  refine ⟨hs, ?_⟩
  obtain ⟨o1, o2, o3, ra, rb, rc, _, _, _, _, _, _, heq⟩ :=
    processRow_match_spec idx rg row r g1 g4 hv hlen (by rw [hfield]; exact hs)
  exact ⟨_, _, _, by rw [heq, derivTs_append, derivTs_append, derivTs_append]⟩

theorem C8_substring_search_witness :
    rgDefault.Valid ∧ (∀ j < 2, matchTsAt (sampleJunk.drop j) = none) ∧
    (reSearch sampleJunk = some (sampleG1, sampleG4) ∧
     ∃ p1 p2 p3 : List Char,
       (processRow 0 rgDefault sampleJunkRow rng0).1 =
         some (sampleJunkRow ++
           [p1 ++ 'T' :: sampleG4, p2 ++ 'T' :: sampleG4, p3 ++ 'T' :: sampleG4])) :=
  ⟨⟨by decide, by decide, by decide⟩, by decide,
   C8_substring_search 0 rgDefault sampleJunkRow rng0 sampleJunk sampleG1 sampleG4 2
     ⟨by decide, by decide, by decide⟩ (by decide) (by decide) (by decide) (by decide)⟩

/-- C3 counterexample: a file whose header is `a|creationDate` and whose one
data row `x` has fewer fields than needed to reach the creation-date column
(index 1) produces an output with the extended header and ZERO data rows —
the input row is silently dropped by the `continue` at line 114-115, so the
output does not contain one row per input data row. -/
theorem C3_counterexample :
    (process_csv_file ("in.csv".data) ("out".data)
        ⟨["a".data, "creationDate".data], [["x".data]]⟩ rgDefault rng0).1 =
      [Eff.write ("out/in.csv".data)
          ⟨["a".data, "creationDate".data, "deletionDate".data,
            "validStart".data, "validEnd".data], []⟩,
       Eff.msg (processedMsg ("in.csv".data) ("out/in.csv".data))] := by
  decide

/-- C3 amended: a row whose creation-date field does not match the pattern is
copied to output unchanged, PROVIDED the row has more fields than the
creation-date index; the output contains exactly one row per input row having
more than `creation_date_index` fields, and rows with at most that many
fields are silently dropped. -/
theorem C3_passthrough_amended (idx : Nat) (rg : Ranges)
    (rows : List (List (List Char))) (r : Rng) (hv : rg.Valid) :
    ((processRows idx rg rows r).1).length =
      (rows.filter (fun row => decide (idx < row.length))).length
    ∧ ∀ row ∈ rows, idx < row.length → reSearch (row.getD idx []) = none →
        row ∈ (processRows idx rg rows r).1 := by
  induction rows generalizing r with
  | nil => simp [processRows]
  | cons row rest ih =>
    by_cases h : idx < row.length
    · obtain ⟨w, hw⟩ := processRow_isSome idx rg row r h
      constructor
      · simp only [processRows, hw, List.length_cons, List.filter_cons,
          decide_eq_true h, if_pos, (ih _).1]
      · intro row' hmem hlen' hmatch'
        rcases List.mem_cons.mp hmem with rfl | hmem'
        · have hnm := processRow_nomatch idx rg row' r hlen' hmatch'
          have hw' : (processRow idx rg row' r).1 = some row' := by rw [hnm]
          simp only [processRows, hw']
          exact List.mem_cons_self _ _
        · simp only [processRows, hw]
          exact List.mem_cons_of_mem _ ((ih _).2 row' hmem' hlen' hmatch')
    · have hs := processRow_short idx rg row r (by omega)
      have hs1 : (processRow idx rg row r).1 = none := by rw [hs]
      have hs2 : (processRow idx rg row r).2 = r := by rw [hs]
      constructor
      · simp only [processRows, hs1, hs2, List.filter_cons, decide_eq_false h]
        exact (ih _).1
      · intro row' hmem hlen' hmatch'
        rcases List.mem_cons.mp hmem with rfl | hmem'
        · omega
        · simp only [processRows, hs1, hs2]
          exact (ih _).2 row' hmem' hlen' hmatch'

theorem C3_passthrough_amended_witness :
    rgDefault.Valid ∧
    (((processRows 1 rgDefault [["x".data]] rng0).1).length =
        (([["x".data]] : List (List (List Char))).filter
          (fun row => decide (1 < row.length))).length
      ∧ ∀ row ∈ ([["x".data]] : List (List (List Char))), 1 < row.length →
          reSearch (row.getD 1 []) = none →
          row ∈ (processRows 1 rgDefault [["x".data]] rng0).1) :=
  ⟨⟨by decide, by decide, by decide⟩,
   C3_passthrough_amended 1 rgDefault [["x".data]] rng0 ⟨by decide, by decide, by decide⟩⟩

theorem writesOf_append (a b : List Eff) : writesOf (a ++ b) = writesOf a ++ writesOf b := by
  simp [writesOf]

theorem writesOf_nil : writesOf [] = [] := rfl

theorem writesOf_mkdirs (p : List Char) (l : List Eff) :
    writesOf (Eff.mkdirs p :: l) = writesOf l := by simp [writesOf]

theorem writesOf_msg (m : List Char) (l : List Eff) :
    writesOf (Eff.msg m :: l) = writesOf l := by simp [writesOf]

theorem writesOf_write (p : List Char) (c : CsvFile) (l : List Eff) :
    writesOf (Eff.write p c :: l) = (p, c) :: writesOf l := by simp [writesOf]

theorem process_csv_file_skip (input_file output_directory : List Char) (f : CsvFile)
    (rg : Ranges) (r : Rng) (h : listIndex creationDateS f.header = none) :
    process_csv_file input_file output_directory f rg r =
      ([Eff.msg (skipMsg input_file)], r) := by
  simp [process_csv_file, h]

theorem process_csv_file_write (input_file output_directory : List Char) (f : CsvFile)
    (rg : Ranges) (r : Rng) (k : Nat) (h : listIndex creationDateS f.header = some k) :
    process_csv_file input_file output_directory f rg r =
      ([Eff.write (pyJoin output_directory (pyBasename input_file))
          ⟨f.header ++ newColumnsS, (processRows k rg f.rows r).1⟩,
        Eff.msg (processedMsg input_file
          (pyJoin output_directory (pyBasename input_file)))],
       (processRows k rg f.rows r).2) := by
  simp [process_csv_file, h]

theorem processFilesLoop_writes (ind outd : List Char) (rg : Ranges) :
    ∀ (files : List (List Char × CsvFile)) (r : Rng),
      (writesOf (processFilesLoop ind outd rg files r).1).map Prod.fst =
        (files.filter (fun nf => (listIndex creationDateS nf.2.header).isSome)).map
          (fun nf => pyJoin outd (pyBasename (pyJoin ind nf.1))) := by
  intro files
  induction files with
  | nil => intro r; simp [processFilesLoop, writesOf]
  | cons nf rest ih =>
    intro r
    rcases hidx : listIndex creationDateS nf.2.header with _ | k
    · have hskip := process_csv_file_skip (pyJoin ind nf.1) outd nf.2 rg r hidx
      simp only [processFilesLoop, hskip, writesOf_append, List.map_append,
        List.filter_cons, hidx, Option.isSome_none, writesOf_msg, writesOf_nil,
        List.map_nil, List.nil_append]
      exact ih _
    · have hw := process_csv_file_write (pyJoin ind nf.1) outd nf.2 rg r k hidx
      simp only [processFilesLoop, hw, writesOf_append, List.map_append,
        List.filter_cons, hidx, Option.isSome_some, writesOf_write, writesOf_msg,
        writesOf_nil, if_pos, List.map_cons, List.map_nil, List.cons_append,
        List.nil_append]
      rw [ih _]

theorem processFilesLoop_skip_mem (ind outd : List Char) (rg : Ranges) :
    ∀ (files : List (List Char × CsvFile)) (r : Rng) (nf : List Char × CsvFile),
      nf ∈ files → listIndex creationDateS nf.2.header = none →
      Eff.msg (skipMsg (pyJoin ind nf.1)) ∈ (processFilesLoop ind outd rg files r).1 := by
  intro files
  induction files with
  | nil => intro r nf h; simp at h
  | cons nf0 rest ih =>
    intro r nf hmem hnone
    rcases List.mem_cons.mp hmem with rfl | hmem'
    · have hskip := process_csv_file_skip (pyJoin ind nf.1) outd nf.2 rg r hnone
      simp only [processFilesLoop, hskip]
      exact List.mem_append.mpr (Or.inl (List.mem_singleton.mpr rfl))
    · simp only [processFilesLoop]
      exact List.mem_append.mpr (Or.inr (ih _ nf hmem' hnone))

theorem process_directory_no_csv (ind outd : List Char)
    (files : List (List Char × CsvFile)) (rg : Ranges) (r : Rng)
    (h : (files.filter (fun nf => pyEndswith (".csv".data) nf.1)).isEmpty = true) :
    process_directory ind outd files rg r =
      ([Eff.mkdirs outd, Eff.msg (noCsvMsg ind)], r) := by
  simp [process_directory, h]

theorem process_directory_some_csv (ind outd : List Char)
    (files : List (List Char × CsvFile)) (rg : Ranges) (r : Rng)
    (h : (files.filter (fun nf => pyEndswith (".csv".data) nf.1)).isEmpty = false) :
    process_directory ind outd files rg r =
      (Eff.mkdirs outd ::
        Eff.msg (processingMsg
          (files.filter (fun nf => pyEndswith (".csv".data) nf.1)).length ind) ::
        (processFilesLoop ind outd rg
          (files.filter (fun nf => pyEndswith (".csv".data) nf.1)) r).1,
       (processFilesLoop ind outd rg
          (files.filter (fun nf => pyEndswith (".csv".data) nf.1)) r).2) := by
  simp [process_directory, h]

/-- C5: in directory mode, a CSV file whose header has no `creationDate`
column contributes no output file (its output is never opened) while a
diagnostic naming it is emitted, and every other CSV file of the directory is
still processed: the written outputs are exactly the `.csv` entries whose
header contains the column, in order. -/
theorem C5_skip_and_continue (ind outd : List Char)
    (files : List (List Char × CsvFile)) (rg : Ranges) (r : Rng) (hv : rg.Valid) :
    (writesOf (process_directory ind outd files rg r).1).map Prod.fst =
      ((files.filter (fun nf => pyEndswith (".csv".data) nf.1)).filter
          (fun nf => (listIndex creationDateS nf.2.header).isSome)).map
        (fun nf => pyJoin outd (pyBasename (pyJoin ind nf.1)))
    ∧ ∀ nf ∈ files, pyEndswith (".csv".data) nf.1 = true →
        listIndex creationDateS nf.2.header = none →
        Eff.msg (skipMsg (pyJoin ind nf.1)) ∈ (process_directory ind outd files rg r).1 := by
  rcases hE : (files.filter (fun nf => pyEndswith (".csv".data) nf.1)).isEmpty with _ | _
  · rw [process_directory_some_csv ind outd files rg r hE]
    constructor
    · simp only [writesOf_mkdirs, writesOf_msg]
      exact processFilesLoop_writes ind outd rg _ r
    · intro nf hmem hcsv hnone
      refine List.mem_cons_of_mem _ (List.mem_cons_of_mem _ ?_)
      exact processFilesLoop_skip_mem ind outd rg _ r nf
        (List.mem_filter.mpr ⟨hmem, hcsv⟩) hnone
  · rw [process_directory_no_csv ind outd files rg r hE]
    constructor
    · rw [List.isEmpty_iff] at hE
      simp [writesOf, hE]
    · intro nf hmem hcsv hnone
      rw [List.isEmpty_iff] at hE
      have : nf ∈ (files.filter (fun nf => pyEndswith (".csv".data) nf.1)) :=
        List.mem_filter.mpr ⟨hmem, hcsv⟩
      rw [hE] at this
      simp at this

theorem C5_skip_and_continue_witness :
    rgDefault.Valid ∧
    ((writesOf (process_directory ("ind".data) ("outd".data) cexDirFiles rgDefault rng0).1).map
        Prod.fst =
      ((cexDirFiles.filter (fun nf => pyEndswith (".csv".data) nf.1)).filter
          (fun nf => (listIndex creationDateS nf.2.header).isSome)).map
        (fun nf => pyJoin ("outd".data) (pyBasename (pyJoin ("ind".data) nf.1)))
    ∧ ∀ nf ∈ cexDirFiles, pyEndswith (".csv".data) nf.1 = true →
        listIndex creationDateS nf.2.header = none →
        Eff.msg (skipMsg (pyJoin ("ind".data) nf.1)) ∈
          (process_directory ("ind".data) ("outd".data) cexDirFiles rgDefault rng0).1) :=
  ⟨⟨by decide, by decide, by decide⟩,
   C5_skip_and_continue ("ind".data) ("outd".data) cexDirFiles rgDefault rng0
     ⟨by decide, by decide, by decide⟩⟩

theorem generate_random_date_length (y : Int) (r : Rng) :
    (generate_random_date y r).1.length = (pyStrInt y).length + 6 := by
  obtain ⟨m, d, hm1, hm2, hd1, hd2, heq⟩ := generate_random_date_shape y r
  have hd31 : d ≤ 31 := le_trans hd2 (gr_max_day_bounds y m hm1 hm2).2
  rw [heq]
  simp [List.length_append, List.length_cons,
    pad2_length m hm1 (by omega), pad2_length d hd1 (by omega)]

/-- C9: the derived-timestamp composition slices a fixed 5-character prefix
off the random date string; with the creation-year group 4 digits wide, a
derived timestamp at target year `y` (with `0 ≤ y ≤ 9999`) has the
well-formed shape `<year>-<2-digit month>-<2-digit day>T<suffix>` exactly
when `1000 ≤ y`; below 1000 the slice eats into the month digits and no such
decomposition exists. -/
theorem C9_wellformed_iff (y : Int) (tp : List Char) (r : Rng)
    (h0 : 0 ≤ y) (h1 : y ≤ 9999) :
    (∃ m d : List Char, m.length = 2 ∧ d.length = 2 ∧
       (∀ c ∈ m, isDigitChar c = true) ∧ (∀ c ∈ d, isDigitChar c = true) ∧
       derivTs y tp r = pyStrInt y ++ '-' :: m ++ '-' :: d ++ 'T' :: tp)
    ↔ 1000 ≤ y := by
  constructor
  · rintro ⟨m, d, hm2, hd2, _, _, heq⟩
    by_contra hlt
    push_neg at hlt
    have hL3 : (pyStrInt y).length ≤ 3 := pyStrInt_len_le_three y h0 (by omega)
    have hL1 : 1 ≤ (pyStrInt y).length := pyStrInt_len_pos y
    have hgl := generate_random_date_length y r
    have hlen := congrArg List.length heq
    simp only [derivTs, List.length_append, List.length_cons, List.length_drop,
      hgl, hm2, hd2] at hlen
    omega
  · intro hy
    obtain ⟨m, d, hm1, hm2, hd1, hd2, heq⟩ := generate_random_date_shape y r
    have hd31 : d ≤ 31 := le_trans hd2 (gr_max_day_bounds y m hm1 hm2).2
    refine ⟨pad2 m, pad2 d, pad2_length m hm1 (by omega), pad2_length d hd1 (by omega),
      pad2_digits m (by omega), pad2_digits d (by omega), ?_⟩
    rw [derivTs, heq]
    have hlen4 : (pyStrInt y).length = 4 := pyStrInt_len_four y hy h1
    rw [show pyStrInt y ++ '-' :: pad2 m ++ '-' :: pad2 d
        = (pyStrInt y ++ ['-']) ++ (pad2 m ++ '-' :: pad2 d) by simp]
    rw [List.drop_left' (by simp [hlen4])]
    simp [List.append_assoc]

theorem C9_wellformed_iff_witness :
    (0 : Int) ≤ 2024 ∧ (2024 : Int) ≤ 9999 ∧
    ((∃ m d : List Char, m.length = 2 ∧ d.length = 2 ∧
        (∀ c ∈ m, isDigitChar c = true) ∧ (∀ c ∈ d, isDigitChar c = true) ∧
        derivTs 2024 sampleG4 rng0 =
          pyStrInt 2024 ++ '-' :: m ++ '-' :: d ++ 'T' :: sampleG4)
      ↔ (1000 : Int) ≤ 2024) :=
  ⟨by decide, by decide,
   C9_wellformed_iff 2024 sampleG4 rng0 (by decide) (by decide)⟩

/-- C10: `main` creates the output directory (`os.makedirs` with
`exist_ok=True`) as its very first action, before validating the flag
combination: the effect trace of every invocation of `main` begins with that
`mkdirs` — in particular invocations that then exit with status 1 because
both mode flags were supplied still leave the output directory created,
though nothing is written into it. -/
theorem C10_mkdirs_first (argv : List (List Char))
    (input_path output_directory : List Char) (is_directory : Bool)
    (dyr vsr ver : Int × Int) (fs : Fs) (stdin : List (List Char)) (r : Rng) :
    ∃ rest,
      (pymain argv input_path output_directory is_directory dyr vsr ver fs stdin r).2 =
        Eff.mkdirs output_directory :: rest :=
  ⟨(pymainBody argv input_path output_directory is_directory dyr vsr ver fs stdin r).2,
   rfl⟩

/-- C6: the code evaluated at the failing input
`--directory=ind --file=f.csv` — both mode flags supplied, in the documented
`--name=value` spelling that argparse accepts — exits with status 0 and
writes an output file: the `sys.argv` membership test of lines 231-232 only
recognises the standalone token spellings `-d`/`--directory`/`-f`/`--file`,
so the mutual-exclusion error the script itself announces is bypassed. -/
theorem C6_eq_form_bypass_eval :
    runMain cexArgv cexFs [] rng0 =
      (0, [Eff.mkdirs ("processed_csv".data),
           Eff.mkdirs ("processed_csv".data),
           Eff.msg (processingMsg 1 ("ind".data)),
           Eff.write ("processed_csv/a.csv".data)
             ⟨[("creationDate".data), ("deletionDate".data),
               ("validStart".data), ("validEnd".data)], []⟩,
           Eff.msg (processedMsg ("ind/a.csv".data) ("processed_csv/a.csv".data))]) := by
  decide

/-- C7: the code evaluated at the failing input `1,2,3` (with default range
`(3, 5)`): `get_range_input` silently returns the 3-tuple `(1, 2, 3)` —
neither a parsed min,max pair nor the supplied default — because
`tuple(map(int, ...))` succeeds for any number of comma-separated integers,
contradicting the function's own docstring. -/
theorem C7_triple_input_eval :
    get_range_input ("1,2,3".data) (3, 5) = ([1, 2, 3], []) := by decide

